import Mathlib

/-!
Formal model of the Wayland backend event loop of winit
(src/platform/linux/wayland/event_loop.rs).

The Rust callbacks are embedded as pure Lean functions: each protocol
callback takes the mutable state it touches and returns the updated state
together with the list of events it pushed into the `EventsLoopSink`.
Scroll deltas (f64/f32 in the source) are modelled as rationals, discrete
deltas (i32) as integers, protocol object handles as naturals.
-/

namespace Winit

/-- Touch/scroll phase enum, as used by the pointer axis state. -/
inductive TouchPhase
  | Started
  | Moved
  | Ended
  | Cancelled
deriving DecidableEq

/-- Scroll axis of a wl_pointer axis event. -/
inductive Axis
  | VerticalScroll
  | HorizontalScroll
deriving DecidableEq

/-- Mouse buttons that the backend translates. -/
inductive MouseButton
  | Left
  | Right
  | Middle
deriving DecidableEq

/-- Button press state. -/
inductive ElementState
  | Pressed
  | Released
deriving DecidableEq

/-- Raw wl_pointer button state. -/
inductive WlButtonState
  | Pressed
  | Released
deriving DecidableEq

/-- Scroll delta payload of a MouseWheel event. -/
inductive MouseScrollDelta
  | PixelDelta (x y : ℚ)
  | LineDelta (x y : ℚ)
deriving DecidableEq

/-- Application events pushed into the sink by the code modelled here.
The window id of `send_event` is folded into each constructor. -/
inductive Event
  | MouseEntered (wid : Nat)
  | MouseMoved (wid : Nat) (x y : ℚ)
  | MouseLeft (wid : Nat)
  | MouseInput (wid : Nat) (state : ElementState) (button : MouseButton)
  | MouseWheel (wid : Nat) (delta : MouseScrollDelta) (phase : TouchPhase)
  | Resized (wid : Nat) (w h : Nat)
  | Refresh (wid : Nat)
  | Closed (wid : Nat)
  | Awakened
deriving DecidableEq

/-!
## PointerTranslator: `PointerIData` and `pointer_implementation`
-/

/-- Per-pointer mutable state (struct `PointerIData`). -/
structure PointerIData where
  mouse_focus : Option Nat
  axis_buffer : Option (ℚ × ℚ)
  axis_discrete_buffer : Option (Int × Int)
  axis_state : TouchPhase
deriving DecidableEq

/-- `PointerIData::new`: fresh pointer state. -/
def PointerIData.new : PointerIData :=
  { mouse_focus := none
    axis_buffer := none
    axis_discrete_buffer := none
    axis_state := TouchPhase.Cancelled }

/-- The phase update both axis-delta callbacks perform:
`Started | Moved => Moved, _ => Started`. -/
def axisPhaseUpdate : TouchPhase → TouchPhase
  | TouchPhase.Started => TouchPhase.Moved
  | TouchPhase.Moved => TouchPhase.Moved
  | _ => TouchPhase.Started

/-- The window store lookup `find_wid`: surfaces and window ids are
naturals, the store is an association list surface ↦ window id. -/
def find_wid (store : List (Nat × Nat)) (surface : Nat) : Option Nat :=
  (store.find? (fun p => p.1 == surface)).map (fun p => p.2)

/-- `enter` callback of `pointer_implementation`. -/
def pointer_enter (store : List (Nat × Nat)) (idata : PointerIData)
    (surface : Nat) (x y : ℚ) : PointerIData × List Event :=
  match find_wid store surface with
  | some wid =>
      ({ idata with mouse_focus := some wid },
       [Event.MouseEntered wid, Event.MouseMoved wid x y])
  | none => (idata, [])

/-- `leave` callback of `pointer_implementation`: focus is cleared
unconditionally, `MouseLeft` is emitted only if the surface resolves. -/
def pointer_leave (store : List (Nat × Nat)) (idata : PointerIData)
    (surface : Nat) : PointerIData × List Event :=
  let idata2 := { idata with mouse_focus := none }
  match find_wid store surface with
  | some wid => (idata2, [Event.MouseLeft wid])
  | none => (idata2, [])

/-- `motion` callback of `pointer_implementation`. -/
def pointer_motion (idata : PointerIData) (x y : ℚ) :
    PointerIData × List Event :=
  match idata.mouse_focus with
  | some wid => (idata, [Event.MouseMoved wid x y])
  | none => (idata, [])

/-- `button` callback: maps 0x110/0x111/0x112 to Left/Right/Middle,
drops any other code silently. -/
def pointer_button (idata : PointerIData) (button : Nat)
    (state : WlButtonState) : PointerIData × List Event :=
  match idata.mouse_focus with
  | some wid =>
      let st := match state with
        | WlButtonState.Pressed => ElementState.Pressed
        | WlButtonState.Released => ElementState.Released
      if button = 0x110 then
        (idata, [Event.MouseInput wid st MouseButton.Left])
      else if button = 0x111 then
        (idata, [Event.MouseInput wid st MouseButton.Right])
      else if button = 0x112 then
        (idata, [Event.MouseInput wid st MouseButton.Middle])
      else (idata, [])
  | none => (idata, [])

/-- `axis` callback (continuous scroll). For pointer versions below 5 the
event is emitted immediately; from version 5 on the delta accumulates
into `axis_buffer` and the phase steps. The vertical sign is inverted. -/
def pointer_axis (version : Nat) (idata : PointerIData) (axis : Axis)
    (value : ℚ) : PointerIData × List Event :=
  match idata.mouse_focus with
  | some wid =>
      if version < 5 then
        let x : ℚ := match axis with
          | Axis.HorizontalScroll => 0 + value
          | Axis.VerticalScroll => 0
        let y : ℚ := match axis with
          | Axis.VerticalScroll => 0 - value
          | Axis.HorizontalScroll => 0
        (idata,
         [Event.MouseWheel wid (MouseScrollDelta.PixelDelta x y)
            TouchPhase.Moved])
      else
        let p := idata.axis_buffer.getD (0, 0)
        let x : ℚ := match axis with
          | Axis.HorizontalScroll => p.1 + value
          | Axis.VerticalScroll => p.1
        let y : ℚ := match axis with
          | Axis.VerticalScroll => p.2 - value
          | Axis.HorizontalScroll => p.2
        ({ idata with
            axis_buffer := some (x, y)
            axis_state := axisPhaseUpdate idata.axis_state }, [])
  | none => (idata, [])

/-- `axis_discrete` callback: accumulates into `axis_discrete_buffer`
and steps the phase; it performs no focus check. -/
def pointer_axis_discrete (idata : PointerIData) (axis : Axis)
    (discrete : Int) : PointerIData × List Event :=
  let p := idata.axis_discrete_buffer.getD (0, 0)
  let x : Int := match axis with
    | Axis.HorizontalScroll => p.1 + discrete
    | Axis.VerticalScroll => p.1
  let y : Int := match axis with
    | Axis.VerticalScroll => p.2 - discrete
    | Axis.HorizontalScroll => p.2
  ({ idata with
      axis_discrete_buffer := some (x, y)
      axis_state := axisPhaseUpdate idata.axis_state }, [])

/-- `axis_stop` callback: forces the phase to `Ended`. -/
def pointer_axis_stop (idata : PointerIData) : PointerIData × List Event :=
  ({ idata with axis_state := TouchPhase.Ended }, [])

/-- `frame` callback: both buffers are taken unconditionally; if a window
is focused, the discrete buffer is emitted as a LineDelta wheel event if
present, otherwise the continuous buffer as a PixelDelta wheel event if
present; the current phase tags the event. -/
def pointer_frame (idata : PointerIData) : PointerIData × List Event :=
  let axis_buffer := idata.axis_buffer
  let axis_discrete_buffer := idata.axis_discrete_buffer
  let idata2 :=
    { idata with axis_buffer := none, axis_discrete_buffer := none }
  match idata2.mouse_focus with
  | some wid =>
      match axis_discrete_buffer with
      | some (x, y) =>
          (idata2,
           [Event.MouseWheel wid
              (MouseScrollDelta.LineDelta (x : ℚ) (y : ℚ))
              idata2.axis_state])
      | none =>
          match axis_buffer with
          | some (x, y) =>
              (idata2,
               [Event.MouseWheel wid
                  (MouseScrollDelta.PixelDelta x y)
                  idata2.axis_state])
          | none => (idata2, [])
  | none => (idata2, [])

/-!
## Pointer message traces
-/

/-- A raw wl_pointer message, used to form delivery traces. -/
inductive PtrMsg
  | enter (surface : Nat) (x y : ℚ)
  | leave (surface : Nat)
  | motion (x y : ℚ)
  | button (b : Nat) (st : WlButtonState)
  | axis (a : Axis) (v : ℚ)
  | axisDiscrete (a : Axis) (d : Int)
  | axisStop
  | frame
deriving DecidableEq

/-- Dispatch one pointer message to the matching callback. -/
def ptrStep (version : Nat) (store : List (Nat × Nat))
    (idata : PointerIData) : PtrMsg → PointerIData × List Event
  | PtrMsg.enter s x y => pointer_enter store idata s x y
  | PtrMsg.leave s => pointer_leave store idata s
  | PtrMsg.motion x y => pointer_motion idata x y
  | PtrMsg.button b st => pointer_button idata b st
  | PtrMsg.axis a v => pointer_axis version idata a v
  | PtrMsg.axisDiscrete a d => pointer_axis_discrete idata a d
  | PtrMsg.axisStop => pointer_axis_stop idata
  | PtrMsg.frame => pointer_frame idata

/-- Deliver a trace of pointer messages in order, collecting all emitted
events. -/
def ptrRun (version : Nat) (store : List (Nat × Nat))
    (idata : PointerIData) : List PtrMsg → PointerIData × List Event
  | [] => (idata, [])
  | m :: rest =>
      let r := ptrStep version store idata m
      let r2 := ptrRun version store r.1 rest
      (r2.1, r.2 ++ r2.2)

/-- Axis-delta messages only (the traces claim C1 quantifies over). -/
inductive AxisMsg
  | axis (a : Axis) (v : ℚ)
  | axisDiscrete (a : Axis) (d : Int)
deriving DecidableEq

/-- Deliver a trace of axis-delta messages in order. -/
def processAxisMsgs (version : Nat) (idata : PointerIData) :
    List AxisMsg → PointerIData × List Event
  | [] => (idata, [])
  | m :: rest =>
      let r := match m with
        | AxisMsg.axis a v => pointer_axis version idata a v
        | AxisMsg.axisDiscrete a d => pointer_axis_discrete idata a d
      let r2 := processAxisMsgs version r.1 rest
      (r2.1, r.2 ++ r2.2)

/-!
## SeatManager: `seat_implementation` capabilities callback
-/

/-- The seat capability bitfield. -/
structure Capabilities where
  pointer : Bool
  keyboard : Bool
  touch : Bool
deriving DecidableEq

/-- Sub-handler state of `SeatIData`: the bound pointer/keyboard proxies
are modelled by the fresh handles they were created with. -/
structure SeatIData where
  pointer : Option Nat
  keyboard : Option Nat
deriving DecidableEq

/-- Observable side actions of the capabilities callback. -/
inductive SeatAction
  | createPointer (p : Nat)
  | releasePointer (p : Nat)
  | createKeyboard (k : Nat)
  | releaseKeyboard (k : Nat)
deriving DecidableEq

/-- `capabilities` callback of `seat_implementation`: the four sequential
checks of the source, in order. `newPtr` and `newKbd` stand for the fresh
proxies `seat.get_pointer()` / `seat.get_keyboard()` would return. -/
def seat_capabilities (idata : SeatIData) (caps : Capabilities)
    (newPtr newKbd : Nat) : SeatIData × List SeatAction :=
  let s1 : SeatIData × List SeatAction :=
    if caps.pointer && idata.pointer.isNone then
      ({ idata with pointer := some newPtr },
       [SeatAction.createPointer newPtr])
    else (idata, [])
  let s2 : SeatIData × List SeatAction :=
    if caps.pointer then s1
    else
      match s1.1.pointer with
      | some p =>
          ({ s1.1 with pointer := none },
           s1.2 ++ [SeatAction.releasePointer p])
      | none => s1
  let s3 : SeatIData × List SeatAction :=
    if caps.keyboard && s2.1.keyboard.isNone then
      ({ s2.1 with keyboard := some newKbd },
       s2.2 ++ [SeatAction.createKeyboard newKbd])
    else s2
  if caps.keyboard then s3
  else
    match s3.1.keyboard with
    | some kb =>
        ({ s3.1 with keyboard := none },
         s3.2 ++ [SeatAction.releaseKeyboard kb])
    | none => s3

/-!
## MonitorRegistry, StateContext, global callbacks
-/

/-- One display output record (struct `OutputInfo`); `output` is the
identity of the bound protocol proxy. -/
structure OutputInfo where
  output : Nat
  id : Nat
  scale : ℚ
  pix_size : Nat × Nat
  pix_pos : Int × Int
  name : String
deriving DecidableEq

instance : Inhabited OutputInfo :=
  ⟨{ output := 0, id := 0, scale := 1, pix_size := (0, 0),
     pix_pos := (0, 0), name := "" }⟩

/-- `OutputInfo::new`. -/
def OutputInfo.new (output id : Nat) : OutputInfo :=
  { output := output, id := id, scale := 1, pix_size := (0, 0),
    pix_pos := (0, 0), name := "" }

/-- The negotiated shell variant. -/
inductive Shell
  | Wl (name : Nat)
  | Xdg (id : Nat)
deriving DecidableEq

/-- `StateContext`: seat binding, shell binding and the monitor registry.
The `Arc<Mutex<OutputInfo>>` cells live in a heap (`WaylandState.store`);
`monitors` holds references into it. -/
structure StateContext where
  seat : Option Nat
  shell : Option Shell
  monitors : List Nat
deriving DecidableEq

/-- The loop state the global callbacks touch: the context, the heap of
shared `OutputInfo` cells, and the advertised globals list maintained by
the environment handler (id, interface, version). -/
structure WaylandState where
  ctxt : StateContext
  store : List OutputInfo
  globals : List (Nat × String × Nat)
deriving DecidableEq

/-- `new_global` of `env_notify`: a wl_output advertisement binds the
output and appends a fresh shared `OutputInfo`; a zxdg_shell_v6
advertisement binds it and overwrites the shell field; every
advertisement is recorded in the globals list. -/
def new_global (s : WaylandState) (id : Nat) (interface : String)
    (version : Nat) : WaylandState :=
  let s2 :=
    if interface = "wl_output" then
      { s with
        ctxt := { s.ctxt with monitors := s.ctxt.monitors ++ [s.store.length] }
        store := s.store ++ [OutputInfo.new s.store.length id] }
    else if interface = "zxdg_shell_v6" then
      { s with ctxt := { s.ctxt with shell := some (Shell.Xdg id) } }
    else s
  { s2 with globals := s2.globals ++ [(id, interface, version)] }

/-- `del_global` of `env_notify`: the monitor registry retains only
entries whose stored numeric id differs from the removed id; the heap of
shared cells is untouched. -/
def del_global (s : WaylandState) (id : Nat) : WaylandState :=
  { s with
    ctxt := { s.ctxt with
      monitors := s.ctxt.monitors.filter
        (fun r => (s.store.getD r default).id != id) }
    globals := s.globals.filter (fun g => g.1 != id) }

/-- Scan the advertised globals for the first one with the given
interface name, returning its numeric name. -/
def findInterface (globals : List (Nat × String × Nat))
    (iface : String) : Option Nat :=
  (globals.find? (fun g => g.2.1 == iface)).map (fun g => g.1)

/-- `StateContext::ensure_shell`: if a shell is already bound, do
nothing; otherwise bind wl_shell from the globals; if absent, panic
(modelled as `none`). -/
def ensure_shell (s : WaylandState) : Option WaylandState :=
  if s.ctxt.shell.isSome then some s
  else
    match findInterface s.globals "wl_shell" with
    | some name =>
        some { s with ctxt := { s.ctxt with shell := some (Shell.Wl name) } }
    | none => none

/-- `EventsLoop::init_seat`: returns early if a seat is already bound,
otherwise binds the first advertised wl_seat (if any). -/
def init_seat (s : WaylandState) : WaylandState :=
  if s.ctxt.seat.isSome then s
  else
    match findInterface s.globals "wl_seat" with
    | some name =>
        { s with ctxt := { s.ctxt with seat := some name } }
    | none => s

/-- The operations claim C3 quantifies over. -/
inductive CtxtOp
  | newGlobal (id : Nat) (interface : String) (version : Nat)
  | delGlobal (id : Nat)
  | ensureShell
  | initSeat
deriving DecidableEq

/-- Apply one operation; an `ensure_shell` panic leaves the state as the
aborted computation left it (the bound-shell early return never panics). -/
def applyCtxtOp (s : WaylandState) : CtxtOp → WaylandState
  | CtxtOp.newGlobal i iface v => new_global s i iface v
  | CtxtOp.delGlobal i => del_global s i
  | CtxtOp.ensureShell => (ensure_shell s).getD s
  | CtxtOp.initSeat => init_seat s

/-- Apply a sequence of operations in order. -/
def runOps (s : WaylandState) (ops : List CtxtOp) : WaylandState :=
  ops.foldl applyCtxtOp s

/-- `MonitorId`: an observer handle wrapping a shared reference to an
`OutputInfo` cell. -/
structure MonitorId where
  info : Nat
deriving DecidableEq

/-- `MonitorId::get_name`. -/
def MonitorId.get_name (store : List OutputInfo) (m : MonitorId) :
    Option String :=
  some (store.getD m.info default).name

/-- `MonitorId::get_native_identifier`. -/
def MonitorId.get_native_identifier (store : List OutputInfo)
    (m : MonitorId) : Nat :=
  (store.getD m.info default).id

/-- `MonitorId::get_dimensions`. -/
def MonitorId.get_dimensions (store : List OutputInfo) (m : MonitorId) :
    Nat × Nat :=
  (store.getD m.info default).pix_size

/-- `MonitorId::get_position`. -/
def MonitorId.get_position (store : List OutputInfo) (m : MonitorId) :
    Int × Int :=
  (store.getD m.info default).pix_pos

/-- `MonitorId::get_hidpi_factor`. -/
def MonitorId.get_hidpi_factor (store : List OutputInfo) (m : MonitorId) :
    ℚ :=
  (store.getD m.info default).scale

/-- `EventsLoop::get_available_monitors`: one `MonitorId` per registry
entry. -/
def get_available_monitors (s : WaylandState) : List MonitorId :=
  s.ctxt.monitors.map (fun r => { info := r })

/-!
## WakeupProxy and post-dispatch triggers
-/

/-- The observable state `EventsLoopProxy::wakeup` touches: whether both
weak references still resolve, and the pending-wakeup flag. -/
structure WakeupState where
  alive : Bool
  pending_wakeup : Bool
deriving DecidableEq

/-- Result of `wakeup()`. -/
inductive WakeupResult
  | ok
  | closed
deriving DecidableEq

/-- `EventsLoopProxy::wakeup`: if either weak reference is dead, fail
without touching anything; otherwise set the flag, then sync and flush —
a flush failure is mapped to the closed error after the flag is set. -/
def wakeup (s : WakeupState) (flushOk : Bool) :
    WakeupState × WakeupResult :=
  if s.alive then
    let s2 := { s with pending_wakeup := true }
    if flushOk then (s2, WakeupResult.ok) else (s2, WakeupResult.closed)
  else (s, WakeupResult.closed)

/-- One window entry as yielded by `WindowStore::for_each`: pending new
size, refresh flag, closed flag, window id, decorated-surface handle. -/
structure WindowEntry where
  newsize : Option (Nat × Nat)
  refresh : Bool
  closed : Bool
  wid : Nat
  decorated : Option Nat
deriving DecidableEq

/-- Side actions of `post_dispatch_triggers`, in emission order: the
synchronous surface resize and the events pushed into the sink. -/
inductive TriggerAction
  | resizeSurface (dec : Nat) (w h : Int)
  | emit (e : Event)
deriving DecidableEq

/-- The per-window closure of `post_dispatch_triggers`: resize the
decorated surface then emit Resized when both a new size and a live
decorated handle exist; then Refresh if flagged; then Closed if flagged. -/
def window_triggers (w : WindowEntry) : List TriggerAction :=
  (match w.newsize, w.decorated with
   | some (x, y), some dec =>
       [TriggerAction.resizeSurface dec (x : Int) (y : Int),
        TriggerAction.emit (Event.Resized w.wid x y)]
   | _, _ => []) ++
  (if w.refresh then [TriggerAction.emit (Event.Refresh w.wid)] else []) ++
  (if w.closed then [TriggerAction.emit (Event.Closed w.wid)] else [])

/-- `EventsLoop::post_dispatch_triggers`: convert a set wakeup flag into
one Awakened event and clear it; clear the cleanup flag (the prune
mutates the external WindowStore); then run the per-window closure over
every window. Returns the two flags followed by the action list. -/
def post_dispatch_triggers (pending_wakeup cleanup_needed : Bool)
    (windows : List WindowEntry) : (Bool × Bool) × List TriggerAction :=
  let wake :=
    if pending_wakeup then
      (false, [TriggerAction.emit Event.Awakened])
    else (pending_wakeup, ([] : List TriggerAction))
  let clean2 := if cleanup_needed then false else cleanup_needed
  ((wake.1, clean2), wake.2 ++ windows.flatMap window_triggers)

/-!
## `run_forever` control flow
-/

/-- The user callback control signal. -/
inductive ControlFlow
  | Continue
  | Break
deriving DecidableEq

/-- Drain one batch of sink events through the wrapped callback: every
event is delivered, and the sticky break cell is updated. -/
def drainFlag (cb : Event → ControlFlow) (flag : Bool)
    (evts : List Event) : Bool :=
  evts.foldl
    (fun f e => match cb e with
      | ControlFlow.Break => true
      | ControlFlow.Continue => f) flag

/-- Outcome of a `run_forever` execution: the events delivered to the
callback, the number of blocking dispatch calls performed, and whether
the loop exited (false = it is still blocked waiting for messages). -/
structure RunResult where
  delivered : List Event
  dispatches : Nat
  terminated : Bool
deriving DecidableEq

/-- The `loop` of `run_forever`: each iteration performs one blocking
dispatch (consuming the next batch of sink events), drains it fully,
then checks the sticky break cell. -/
def run_forever_loop (cb : Event → ControlFlow) (flag : Bool) :
    List (List Event) → RunResult
  | [] => { delivered := [], dispatches := 0, terminated := false }
  | b :: rest =>
      let flag2 := drainFlag cb flag b
      if flag2 then { delivered := b, dispatches := 1, terminated := true }
      else
        let r := run_forever_loop cb flag2 rest
        { delivered := b ++ r.delivered, dispatches := r.dispatches + 1,
          terminated := r.terminated }

/-- `EventsLoop::run_forever`: drain the pre-buffered events first, then
enter the blocking loop. `pending` is the sink content after the initial
trigger pass; `batches` are the sink contents each successive blocking
dispatch (with its trigger pass) makes available. -/
def run_forever (cb : Event → ControlFlow) (pending : List Event)
    (batches : List (List Event)) : RunResult :=
  let flag0 := drainFlag cb false pending
  let r := run_forever_loop cb flag0 batches
  { delivered := pending ++ r.delivered, dispatches := r.dispatches,
    terminated := r.terminated }

/-!
## Specification-side helper functions

These formalise the words of the specification (sums of deltas, first
breaking batch, phase-transition table) and are only used to *state*
properties of the definitions above.
-/

/-- Sum of the horizontal continuous deltas of a trace (spec side). -/
def contX : List AxisMsg → ℚ
  | [] => 0
  | AxisMsg.axis Axis.HorizontalScroll v :: rest => v + contX rest
  | _ :: rest => contX rest

/-- Sum of the raw vertical continuous deltas of a trace (spec side);
the emitted value is its negation. -/
def contVert : List AxisMsg → ℚ
  | [] => 0
  | AxisMsg.axis Axis.VerticalScroll v :: rest => v + contVert rest
  | _ :: rest => contVert rest

/-- Sum of the horizontal discrete deltas of a trace (spec side). -/
def discX : List AxisMsg → Int
  | [] => 0
  | AxisMsg.axisDiscrete Axis.HorizontalScroll d :: rest => d + discX rest
  | _ :: rest => discX rest

/-- Sum of the raw vertical discrete deltas of a trace (spec side). -/
def discVert : List AxisMsg → Int
  | [] => 0
  | AxisMsg.axisDiscrete Axis.VerticalScroll d :: rest => d + discVert rest
  | _ :: rest => discVert rest

/-- Whether a trace contains a continuous axis message (spec side). -/
def hasCont (msgs : List AxisMsg) : Bool :=
  msgs.any (fun m => match m with
    | AxisMsg.axis _ _ => true
    | _ => false)

/-- Whether a trace contains a discrete axis message (spec side). -/
def hasDiscrete (msgs : List AxisMsg) : Bool :=
  msgs.any (fun m => match m with
    | AxisMsg.axisDiscrete _ _ => true
    | _ => false)

/-- The continuous buffer after a trace, starting from a given buffer
(mirrors the accumulation the axis callback performs). -/
def accCont (b : Option (ℚ × ℚ)) : List AxisMsg → Option (ℚ × ℚ)
  | [] => b
  | AxisMsg.axis a v :: rest =>
      let p := b.getD (0, 0)
      let x : ℚ := match a with
        | Axis.HorizontalScroll => p.1 + v
        | Axis.VerticalScroll => p.1
      let y : ℚ := match a with
        | Axis.VerticalScroll => p.2 - v
        | Axis.HorizontalScroll => p.2
      accCont (some (x, y)) rest
  | AxisMsg.axisDiscrete _ _ :: rest => accCont b rest

/-- The discrete buffer after a trace, starting from a given buffer. -/
def accDisc (b : Option (Int × Int)) : List AxisMsg → Option (Int × Int)
  | [] => b
  | AxisMsg.axisDiscrete a d :: rest =>
      let p := b.getD (0, 0)
      let x : Int := match a with
        | Axis.HorizontalScroll => p.1 + d
        | Axis.VerticalScroll => p.1
      let y : Int := match a with
        | Axis.VerticalScroll => p.2 - d
        | Axis.HorizontalScroll => p.2
      accDisc (some (x, y)) rest
  | AxisMsg.axis _ _ :: rest => accDisc b rest

/-- The phase after a trace of axis-delta messages. -/
def accPhase (ph : TouchPhase) : List AxisMsg → TouchPhase
  | [] => ph
  | _ :: rest => accPhase (axisPhaseUpdate ph) rest

/-- The phase-transition table exactly as the specification words it:
Started ↦ Moved, Moved ↦ Moved, Ended ↦ Started, Cancelled ↦ Started. -/
def specPhaseDelta : TouchPhase → TouchPhase
  | TouchPhase.Started => TouchPhase.Moved
  | TouchPhase.Moved => TouchPhase.Moved
  | TouchPhase.Ended => TouchPhase.Started
  | TouchPhase.Cancelled => TouchPhase.Started

/-- The phase a MouseWheel event carries (spec side). -/
def eventPhase : Event → Option TouchPhase
  | Event.MouseWheel _ _ ph => some ph
  | _ => none

/-- Pointer messages that are neither enter nor leave (the callbacks the
claim about an unfocused pointer quantifies over). -/
def isQuiet : PtrMsg → Bool
  | PtrMsg.enter _ _ _ => false
  | PtrMsg.leave _ => false
  | _ => true

/-- Whether draining a batch through the callback observes a Break. -/
def breaksIn (cb : Event → ControlFlow) (evts : List Event) : Bool :=
  evts.any (fun e => match cb e with
    | ControlFlow.Break => true
    | ControlFlow.Continue => false)

/-- Index of the first batch whose drain observes a Break (spec side). -/
def firstBreak (cb : Event → ControlFlow) :
    List (List Event) → Option Nat
  | [] => none
  | b :: rest =>
      if breaksIn cb b then some 0
      else (firstBreak cb rest).map (fun k => k + 1)

/-- A pointer state focused on `wid` with both scroll buffers empty (the
state right after a frame boundary). -/
def freshFocusedPointer (wid : Nat) (ph : TouchPhase) : PointerIData :=
  { mouse_focus := some wid, axis_buffer := none,
    axis_discrete_buffer := none, axis_state := ph }

/-- Whether an operation is an extended-shell advertisement (spec side). -/
def isXdgAdvert : CtxtOp → Bool
  | CtxtOp.newGlobal _ iface _ => iface == "zxdg_shell_v6"
  | _ => false

/-!
## Lemmas about axis accumulation
-/

/-- Delivering axis-delta messages to a focused pointer of version ≥ 5
emits nothing and accumulates both buffers while stepping the phase. -/
theorem processAxisMsgs_spec (version wid : Nat) :
    ∀ (msgs : List AxisMsg) (idata : PointerIData),
      5 ≤ version → idata.mouse_focus = some wid →
      processAxisMsgs version idata msgs =
        ({ mouse_focus := idata.mouse_focus,
           axis_buffer := accCont idata.axis_buffer msgs,
           axis_discrete_buffer := accDisc idata.axis_discrete_buffer msgs,
           axis_state := accPhase idata.axis_state msgs }, []) := by
  intro msgs
  induction msgs with
  | nil =>
      intro idata hv hf
      simp [processAxisMsgs, accCont, accDisc, accPhase]
  | cons m rest ih =>
      intro idata hv hf
      have hlt : ¬ version < 5 := by omega
      cases m with
      | axis a v =>
          simp only [processAxisMsgs, pointer_axis, hf, hlt, if_false]
          rw [ih _ hv (by simp [hf])]
          simp [accCont, accDisc, accPhase]
      | axisDiscrete a d =>
          simp only [processAxisMsgs, pointer_axis_discrete]
          rw [ih _ hv (by simp [hf])]
          simp [accCont, accDisc, accPhase]

/-- Accumulating into an already-started continuous buffer adds the
horizontal sum and subtracts the vertical sum. -/
theorem accCont_some (msgs : List AxisMsg) :
    ∀ x y : ℚ, accCont (some (x, y)) msgs
      = some (x + contX msgs, y - contVert msgs) := by
  induction msgs with
  | nil => intro x y; simp [accCont, contX, contVert]
  | cons m rest ih =>
      intro x y
      cases m with
      | axis a v =>
          cases a with
          | HorizontalScroll =>
              simp only [accCont, contX, contVert, ih, Option.getD_some]
              simp only [if_true, Option.some.injEq, Prod.mk.injEq]
              constructor <;> ring_nf
          | VerticalScroll =>
              simp only [accCont, contX, contVert, ih, Option.getD_some]
              simp only [if_true, Option.some.injEq, Prod.mk.injEq]
              constructor <;> ring_nf
      | axisDiscrete a d =>
          simp [accCont, contX, contVert, ih]

/-- The continuous buffer after a trace, from an empty buffer: present
iff some continuous delta arrived, holding the inverted-vertical sums. -/
theorem accCont_none (msgs : List AxisMsg) :
    accCont none msgs =
      if hasCont msgs then some (contX msgs, -(contVert msgs)) else none := by
  induction msgs with
  | nil => simp [accCont, hasCont]
  | cons m rest ih =>
      cases m with
      | axis a v =>
          cases a with
          | HorizontalScroll =>
              simp only [accCont, hasCont, contX, contVert, accCont_some,
                Option.getD_none, List.any_cons, Bool.true_or]
              simp only [if_true, Option.some.injEq, Prod.mk.injEq]
              constructor <;> ring_nf
          | VerticalScroll =>
              simp only [accCont, hasCont, contX, contVert, accCont_some,
                Option.getD_none, List.any_cons, Bool.true_or]
              simp only [if_true, Option.some.injEq, Prod.mk.injEq]
              constructor <;> ring_nf
      | axisDiscrete a d =>
          simpa [accCont, hasCont, contX, contVert] using ih

/-- Accumulating into an already-started discrete buffer adds the
horizontal sum and subtracts the vertical sum. -/
theorem accDisc_some (msgs : List AxisMsg) :
    ∀ x y : Int, accDisc (some (x, y)) msgs
      = some (x + discX msgs, y - discVert msgs) := by
  induction msgs with
  | nil => intro x y; simp [accDisc, discX, discVert]
  | cons m rest ih =>
      intro x y
      cases m with
      | axisDiscrete a d =>
          cases a with
          | HorizontalScroll =>
              simp only [accDisc, discX, discVert, ih, Option.getD_some]
              simp only [if_true, Option.some.injEq, Prod.mk.injEq]
              constructor <;> ring_nf
          | VerticalScroll =>
              simp only [accDisc, discX, discVert, ih, Option.getD_some]
              simp only [if_true, Option.some.injEq, Prod.mk.injEq]
              constructor <;> ring_nf
      | axis a v =>
          simp [accDisc, discX, discVert, ih]

/-- The discrete buffer after a trace, from an empty buffer: present iff
some discrete delta arrived, holding the inverted-vertical sums. -/
theorem accDisc_none (msgs : List AxisMsg) :
    accDisc none msgs =
      if hasDiscrete msgs then some (discX msgs, -(discVert msgs)) else none := by
  induction msgs with
  | nil => simp [accDisc, hasDiscrete]
  | cons m rest ih =>
      cases m with
      | axisDiscrete a d =>
          cases a with
          | HorizontalScroll =>
              simp only [accDisc, hasDiscrete, discX, discVert, accDisc_some,
                Option.getD_none, List.any_cons, Bool.true_or]
              simp only [if_true, Option.some.injEq, Prod.mk.injEq]
              constructor <;> ring_nf
          | VerticalScroll =>
              simp only [accDisc, hasDiscrete, discX, discVert, accDisc_some,
                Option.getD_none, List.any_cons, Bool.true_or]
              simp only [if_true, Option.some.injEq, Prod.mk.injEq]
              constructor <;> ring_nf
      | axis a v =>
          simpa [accDisc, hasDiscrete, discX, discVert] using ih

/-- C1: for every sequence of axis and axis_discrete callbacks delivered
to a focused pointer (version ≥ 5) followed by one frame callback, the
delivery itself emits nothing; the frame emits the wheel event whose
delta is the signed sum of the accumulated deltas with the vertical sign
inverted, discrete deltas taking priority over the continuous buffer;
and after the frame both accumulation buffers are empty whether or not
an event was emitted. -/
theorem c1_axis_frame_accumulation (version wid : Nat) (ph : TouchPhase)
    (msgs : List AxisMsg) (hv : 5 ≤ version) :
    (processAxisMsgs version (freshFocusedPointer wid ph) msgs).2 = [] ∧
    (pointer_frame
        (processAxisMsgs version (freshFocusedPointer wid ph) msgs).1).1.axis_buffer
      = none ∧
    (pointer_frame
        (processAxisMsgs version (freshFocusedPointer wid ph) msgs).1).1.axis_discrete_buffer
      = none ∧
    (pointer_frame
        (processAxisMsgs version (freshFocusedPointer wid ph) msgs).1).2
      = (if hasDiscrete msgs then
           [Event.MouseWheel wid
              (MouseScrollDelta.LineDelta ((discX msgs : ℚ))
                 (-((discVert msgs : ℚ))))
              (processAxisMsgs version (freshFocusedPointer wid ph) msgs).1.axis_state]
         else if hasCont msgs then
           [Event.MouseWheel wid
              (MouseScrollDelta.PixelDelta (contX msgs) (-(contVert msgs)))
              (processAxisMsgs version (freshFocusedPointer wid ph) msgs).1.axis_state]
         else []) := by
  have h1 := processAxisMsgs_spec version wid msgs (freshFocusedPointer wid ph)
    hv rfl
  rw [h1]
  simp only [freshFocusedPointer, pointer_frame, accCont_none, accDisc_none]
  by_cases hd : hasDiscrete msgs
  · by_cases hc : hasCont msgs <;>
      simp [hd, hc, Int.cast_neg]
  · by_cases hc : hasCont msgs <;>
      simp [hd, hc]

/-- Witness for C1 at a concrete trace mixing continuous and discrete
deltas: the instantiated conclusion of the theorem. -/
theorem c1_axis_frame_accumulation_witness :
    (5 ≤ 5) ∧
    ((processAxisMsgs 5 (freshFocusedPointer 3 TouchPhase.Cancelled)
        [AxisMsg.axis Axis.VerticalScroll 2,
         AxisMsg.axisDiscrete Axis.VerticalScroll 1,
         AxisMsg.axis Axis.HorizontalScroll 4,
         AxisMsg.axisDiscrete Axis.HorizontalScroll 7]).2 = [] ∧
     (pointer_frame
        (processAxisMsgs 5 (freshFocusedPointer 3 TouchPhase.Cancelled)
          [AxisMsg.axis Axis.VerticalScroll 2,
           AxisMsg.axisDiscrete Axis.VerticalScroll 1,
           AxisMsg.axis Axis.HorizontalScroll 4,
           AxisMsg.axisDiscrete Axis.HorizontalScroll 7]).1).1.axis_buffer
       = none ∧
     (pointer_frame
        (processAxisMsgs 5 (freshFocusedPointer 3 TouchPhase.Cancelled)
          [AxisMsg.axis Axis.VerticalScroll 2,
           AxisMsg.axisDiscrete Axis.VerticalScroll 1,
           AxisMsg.axis Axis.HorizontalScroll 4,
           AxisMsg.axisDiscrete Axis.HorizontalScroll 7]).1).1.axis_discrete_buffer
       = none ∧
     (pointer_frame
        (processAxisMsgs 5 (freshFocusedPointer 3 TouchPhase.Cancelled)
          [AxisMsg.axis Axis.VerticalScroll 2,
           AxisMsg.axisDiscrete Axis.VerticalScroll 1,
           AxisMsg.axis Axis.HorizontalScroll 4,
           AxisMsg.axisDiscrete Axis.HorizontalScroll 7]).1).2
       = (if hasDiscrete
              [AxisMsg.axis Axis.VerticalScroll 2,
               AxisMsg.axisDiscrete Axis.VerticalScroll 1,
               AxisMsg.axis Axis.HorizontalScroll 4,
               AxisMsg.axisDiscrete Axis.HorizontalScroll 7] then
            [Event.MouseWheel 3
               (MouseScrollDelta.LineDelta
                  ((discX
                      [AxisMsg.axis Axis.VerticalScroll 2,
                       AxisMsg.axisDiscrete Axis.VerticalScroll 1,
                       AxisMsg.axis Axis.HorizontalScroll 4,
                       AxisMsg.axisDiscrete Axis.HorizontalScroll 7] : ℚ))
                  (-((discVert
                      [AxisMsg.axis Axis.VerticalScroll 2,
                       AxisMsg.axisDiscrete Axis.VerticalScroll 1,
                       AxisMsg.axis Axis.HorizontalScroll 4,
                       AxisMsg.axisDiscrete Axis.HorizontalScroll 7] : ℚ))))
               (processAxisMsgs 5 (freshFocusedPointer 3 TouchPhase.Cancelled)
                  [AxisMsg.axis Axis.VerticalScroll 2,
                   AxisMsg.axisDiscrete Axis.VerticalScroll 1,
                   AxisMsg.axis Axis.HorizontalScroll 4,
                   AxisMsg.axisDiscrete Axis.HorizontalScroll 7]).1.axis_state]
          else if hasCont
              [AxisMsg.axis Axis.VerticalScroll 2,
               AxisMsg.axisDiscrete Axis.VerticalScroll 1,
               AxisMsg.axis Axis.HorizontalScroll 4,
               AxisMsg.axisDiscrete Axis.HorizontalScroll 7] then
            [Event.MouseWheel 3
               (MouseScrollDelta.PixelDelta
                  (contX
                     [AxisMsg.axis Axis.VerticalScroll 2,
                      AxisMsg.axisDiscrete Axis.VerticalScroll 1,
                      AxisMsg.axis Axis.HorizontalScroll 4,
                      AxisMsg.axisDiscrete Axis.HorizontalScroll 7])
                  (-(contVert
                     [AxisMsg.axis Axis.VerticalScroll 2,
                      AxisMsg.axisDiscrete Axis.VerticalScroll 1,
                      AxisMsg.axis Axis.HorizontalScroll 4,
                      AxisMsg.axisDiscrete Axis.HorizontalScroll 7])))
               (processAxisMsgs 5 (freshFocusedPointer 3 TouchPhase.Cancelled)
                  [AxisMsg.axis Axis.VerticalScroll 2,
                   AxisMsg.axisDiscrete Axis.VerticalScroll 1,
                   AxisMsg.axis Axis.HorizontalScroll 4,
                   AxisMsg.axisDiscrete Axis.HorizontalScroll 7]).1.axis_state]
          else [])) :=
  ⟨by omega,
   c1_axis_frame_accumulation 5 3 TouchPhase.Cancelled
     [AxisMsg.axis Axis.VerticalScroll 2,
      AxisMsg.axisDiscrete Axis.VerticalScroll 1,
      AxisMsg.axis Axis.HorizontalScroll 4,
      AxisMsg.axisDiscrete Axis.HorizontalScroll 7] (by omega)⟩

/-- C4 counterexample: with no window focused, a continuous axis-delta
callback leaves the phase unchanged (here Cancelled), not Started as the
claim requires of every pointer state. -/
theorem c4_phase_counterexample :
    (pointer_axis 5
        { mouse_focus := none, axis_buffer := none,
          axis_discrete_buffer := none,
          axis_state := TouchPhase.Cancelled }
        Axis.VerticalScroll 1).1.axis_state = TouchPhase.Cancelled ∧
    TouchPhase.Cancelled ≠ TouchPhase.Started := by
  exact ⟨rfl, by decide⟩

/-- C4 (amended): for a focused pointer of version ≥ 5, a continuous
axis-delta callback steps the phase by the spec table (Started/Moved ↦
Moved, Ended/Cancelled ↦ Started); a discrete axis-delta callback does so
unconditionally; axis-stop always forces Ended; a frame right after an
axis-stop emits its wheel event (if any) with phase Ended; and an
axis-delta callback after an axis-stop restarts the phase at Started. -/
theorem c4_phase_transitions_amended (version : Nat)
    (idata : PointerIData) (wid : Nat) (a : Axis) (v : ℚ) (d : Int) :
    (5 ≤ version → idata.mouse_focus = some wid →
      (pointer_axis version idata a v).1.axis_state
        = specPhaseDelta idata.axis_state) ∧
    ((pointer_axis_discrete idata a d).1.axis_state
        = specPhaseDelta idata.axis_state) ∧
    ((pointer_axis_stop idata).1.axis_state = TouchPhase.Ended) ∧
    (∀ e ∈ (pointer_frame (pointer_axis_stop idata).1).2,
        eventPhase e = some TouchPhase.Ended) ∧
    ((pointer_axis_discrete (pointer_axis_stop idata).1 a d).1.axis_state
        = TouchPhase.Started) ∧
    (5 ≤ version → idata.mouse_focus = some wid →
      (pointer_axis version (pointer_axis_stop idata).1 a v).1.axis_state
        = TouchPhase.Started) := by
  refine ⟨?_, ?_, ?_, ?_, ?_, ?_⟩
  · intro hv hf
    have hlt : ¬ version < 5 := by omega
    cases h : idata.axis_state <;>
      simp [pointer_axis, hf, hlt, axisPhaseUpdate, specPhaseDelta, h]
  · cases h : idata.axis_state <;>
      simp [pointer_axis_discrete, axisPhaseUpdate, specPhaseDelta, h]
  · rfl
  · intro e he
    cases hm : idata.mouse_focus with
    | none => simp [pointer_frame, pointer_axis_stop, hm] at he
    | some wid2 =>
        cases hd : idata.axis_discrete_buffer with
        | some p =>
            rcases p with ⟨px, py⟩
            simp [pointer_frame, pointer_axis_stop, hm, hd] at he
            simp [he, eventPhase]
        | none =>
            cases hc : idata.axis_buffer with
            | some p =>
                rcases p with ⟨px, py⟩
                simp [pointer_frame, pointer_axis_stop, hm, hd, hc] at he
                simp [he, eventPhase]
            | none =>
                simp [pointer_frame, pointer_axis_stop, hm, hd, hc] at he
  · simp [pointer_axis_discrete, pointer_axis_stop, axisPhaseUpdate]
  · intro hv hf
    have hlt : ¬ version < 5 := by omega
    simp [pointer_axis, pointer_axis_stop, hf, hlt, axisPhaseUpdate]

/-- Witness for C4 at a concrete focused pointer state with phase
Started: the instantiated, discharged conclusion of the theorem. -/
theorem c4_phase_transitions_amended_witness :
    ((pointer_axis 5
        { mouse_focus := some 0, axis_buffer := none,
          axis_discrete_buffer := none,
          axis_state := TouchPhase.Started }
        Axis.VerticalScroll 1).1.axis_state
      = specPhaseDelta TouchPhase.Started) ∧
    ((pointer_axis_discrete
        { mouse_focus := some 0, axis_buffer := none,
          axis_discrete_buffer := none,
          axis_state := TouchPhase.Started }
        Axis.VerticalScroll 1).1.axis_state
      = specPhaseDelta TouchPhase.Started) ∧
    ((pointer_axis_stop
        { mouse_focus := some 0, axis_buffer := none,
          axis_discrete_buffer := none,
          axis_state := TouchPhase.Started }).1.axis_state
      = TouchPhase.Ended) ∧
    ((pointer_axis 5
        (pointer_axis_stop
          { mouse_focus := some 0, axis_buffer := none,
            axis_discrete_buffer := none,
            axis_state := TouchPhase.Started }).1
        Axis.VerticalScroll 1).1.axis_state = TouchPhase.Started) := by
  have h := c4_phase_transitions_amended 5
    { mouse_focus := some 0, axis_buffer := none,
      axis_discrete_buffer := none, axis_state := TouchPhase.Started }
    0 Axis.VerticalScroll 1 1
  exact ⟨h.1 (by omega) rfl, h.2.1, h.2.2.1, h.2.2.2.2.2 (by omega) rfl⟩

/-!
## Lemmas about pointer message traces
-/

/-- Running a concatenated trace runs the pieces in sequence. -/
theorem ptrRun_append (version : Nat) (store : List (Nat × Nat)) :
    ∀ (l1 l2 : List PtrMsg) (idata : PointerIData),
      ptrRun version store idata (l1 ++ l2)
        = ((ptrRun version store (ptrRun version store idata l1).1 l2).1,
           (ptrRun version store idata l1).2
             ++ (ptrRun version store (ptrRun version store idata l1).1 l2).2) := by
  intro l1
  induction l1 with
  | nil => intro l2 idata; simp [ptrRun]
  | cons m rest ih =>
      intro l2 idata
      simp [ptrRun, ih, List.append_assoc]

/-- Motion messages on a focused pointer emit one MouseMoved each and
leave the state untouched. -/
theorem ptrRun_motions (version : Nat) (store : List (Nat × Nat))
    (wid : Nat) :
    ∀ (ms : List (ℚ × ℚ)) (idata : PointerIData),
      idata.mouse_focus = some wid →
      ptrRun version store idata (ms.map (fun p => PtrMsg.motion p.1 p.2))
        = (idata, ms.map (fun p => Event.MouseMoved wid p.1 p.2)) := by
  intro ms
  induction ms with
  | nil => intro idata hf; simp [ptrRun]
  | cons p rest ih =>
      intro idata hf
      simp [ptrRun, ptrStep, pointer_motion, hf, ih _ hf]

/-- Any non-enter/leave message delivered to an unfocused pointer emits
nothing and keeps the pointer unfocused. -/
theorem ptrStep_quiet (version : Nat) (store : List (Nat × Nat))
    (idata : PointerIData) (m : PtrMsg) (hq : isQuiet m = true)
    (hf : idata.mouse_focus = none) :
    (ptrStep version store idata m).1.mouse_focus = none ∧
    (ptrStep version store idata m).2 = [] := by
  cases m <;> simp [isQuiet] at hq <;>
    simp [ptrStep, pointer_motion, pointer_button, pointer_axis,
      pointer_axis_discrete, pointer_axis_stop, pointer_frame, hf]

/-- A whole trace of non-enter/leave messages on an unfocused pointer
emits nothing. -/
theorem ptrRun_quiet (version : Nat) (store : List (Nat × Nat)) :
    ∀ (msgs : List PtrMsg) (idata : PointerIData),
      idata.mouse_focus = none →
      (∀ m ∈ msgs, isQuiet m = true) →
      (ptrRun version store idata msgs).2 = [] := by
  intro msgs
  induction msgs with
  | nil => intro idata hf hq; simp [ptrRun]
  | cons m rest ih =>
      intro idata hf hq
      have h1 := ptrStep_quiet version store idata m (hq m (by simp)) hf
      simp [ptrRun, h1.2, ih _ h1.1 (fun z hz => hq z (by simp [hz]))]

/-- C9: enter on a resolvable window, then motions, then leave on the
same window emit exactly MouseEntered, MouseMoved at the entry position,
one MouseMoved per motion, and MouseLeft, in that order; any further
non-enter/leave messages for that pointer emit nothing. -/
theorem c9_enter_motion_leave (version : Nat) (store : List (Nat × Nat))
    (idata : PointerIData) (s w : Nat) (x y : ℚ)
    (motions : List (ℚ × ℚ)) (rest : List PtrMsg)
    (hw : find_wid store s = some w)
    (hq : ∀ m ∈ rest, isQuiet m = true) :
    (ptrRun version store idata
        (PtrMsg.enter s x y ::
          (motions.map (fun p => PtrMsg.motion p.1 p.2)
            ++ (PtrMsg.leave s :: rest)))).2
      = Event.MouseEntered w :: Event.MouseMoved w x y ::
          (motions.map (fun p => Event.MouseMoved w p.1 p.2)
            ++ [Event.MouseLeft w]) := by
  simp only [ptrRun, ptrStep, pointer_enter, hw]
  rw [ptrRun_append]
  rw [ptrRun_motions version store w motions _ rfl]
  simp only [ptrRun, ptrStep, pointer_leave, hw]
  rw [ptrRun_quiet version store rest _ rfl hq]
  simp

/-- Witness for C9 at a concrete store and trace with one motion and a
quiet tail: the instantiated conclusion of the theorem. -/
theorem c9_enter_motion_leave_witness :
    (ptrRun 5 [(1, 10)] PointerIData.new
        (PtrMsg.enter 1 2 3 ::
          ([((4 : ℚ), (5 : ℚ))].map (fun p => PtrMsg.motion p.1 p.2)
            ++ (PtrMsg.leave 1 ::
                  [PtrMsg.motion 9 9, PtrMsg.button 272 WlButtonState.Pressed,
                   PtrMsg.axis Axis.VerticalScroll 1, PtrMsg.frame])))).2
      = Event.MouseEntered 10 :: Event.MouseMoved 10 2 3 ::
          ([((4 : ℚ), (5 : ℚ))].map (fun p => Event.MouseMoved 10 p.1 p.2)
            ++ [Event.MouseLeft 10]) :=
  c9_enter_motion_leave 5 [(1, 10)] PointerIData.new 1 10 2 3
    [((4 : ℚ), (5 : ℚ))]
    [PtrMsg.motion 9 9, PtrMsg.button 272 WlButtonState.Pressed,
     PtrMsg.axis Axis.VerticalScroll 1, PtrMsg.frame]
    (by decide) (by decide)

/-- C5: after every capabilities announcement a pointer (respectively
keyboard) sub-handler exists iff the announcement carried the matching
flag; when the handler already exists and the flag is still set, the
existing handler is kept and no create action fires — so two consecutive
pointer announcements yield exactly one pointer handler, never two. -/
theorem c5_capabilities_idempotent (idata : SeatIData)
    (caps : Capabilities) (p k p2 k2 : Nat) :
    ((seat_capabilities idata caps p k).1.pointer.isSome = caps.pointer) ∧
    ((seat_capabilities idata caps p k).1.keyboard.isSome = caps.keyboard) ∧
    (caps.pointer = true → ∀ p0, idata.pointer = some p0 →
      (seat_capabilities idata caps p k).1.pointer = some p0 ∧
      ∀ q, SeatAction.createPointer q ∉ (seat_capabilities idata caps p k).2) ∧
    (caps.keyboard = true → ∀ k0, idata.keyboard = some k0 →
      (seat_capabilities idata caps p k).1.keyboard = some k0 ∧
      ∀ q, SeatAction.createKeyboard q ∉ (seat_capabilities idata caps p k).2) ∧
    (caps.pointer = true →
      (seat_capabilities (seat_capabilities idata caps p k).1 caps p2 k2).1.pointer
        = (seat_capabilities idata caps p k).1.pointer ∧
      ∀ q, SeatAction.createPointer q
        ∉ (seat_capabilities (seat_capabilities idata caps p k).1 caps p2 k2).2) := by
  rcases caps with ⟨cp, ck, ct⟩
  rcases idata with ⟨ip, ik⟩
  cases cp <;> cases ck <;> cases ip <;> cases ik <;>
    simp [seat_capabilities]

/-- Witness for C5: two consecutive pointer+keyboard announcements on a
state that already has a pointer handler 42 keep handler 42 and create no
pointer handler. -/
theorem c5_capabilities_idempotent_witness :
    ((seat_capabilities { pointer := some 42, keyboard := none }
        { pointer := true, keyboard := true, touch := false } 7 8).1.pointer
      = some 42) ∧
    (∀ q, SeatAction.createPointer q
      ∉ (seat_capabilities { pointer := some 42, keyboard := none }
          { pointer := true, keyboard := true, touch := false } 7 8).2) ∧
    ((seat_capabilities
        (seat_capabilities { pointer := some 42, keyboard := none }
          { pointer := true, keyboard := true, touch := false } 7 8).1
        { pointer := true, keyboard := true, touch := false } 9 10).1.pointer
      = (seat_capabilities { pointer := some 42, keyboard := none }
          { pointer := true, keyboard := true, touch := false } 7 8).1.pointer) := by
  have h := c5_capabilities_idempotent
    { pointer := some 42, keyboard := none }
    { pointer := true, keyboard := true, touch := false } 7 8 9 10
  exact ⟨(h.2.2.1 rfl 42 rfl).1, (h.2.2.1 rfl 42 rfl).2,
    (h.2.2.2.2 rfl).1⟩

/-- No per-window trigger action is the Awakened event. -/
theorem window_triggers_no_awakened (w : WindowEntry) :
    TriggerAction.emit Event.Awakened ∉ window_triggers w := by
  rcases w with ⟨ns, rf, cl, wid, dec⟩
  rcases ns with _ | ⟨nx, ny⟩ <;> rcases dec with _ | d <;>
    cases rf <;> cases cl <;> simp [window_triggers]

/-- No action of the per-window pass is the Awakened event. -/
theorem flatMap_window_triggers_no_awakened (ws : List WindowEntry) :
    TriggerAction.emit Event.Awakened ∉ ws.flatMap window_triggers := by
  intro hmem
  rcases List.mem_flatMap.mp hmem with ⟨w, _, haw⟩
  exact window_triggers_no_awakened w haw

/-- C6: wakeup on a live loop (with the flush succeeding) sets the
pending-wakeup flag and returns Ok; wakeup on a dropped loop returns the
closed error and changes nothing; a trigger pass with the flag set emits
exactly one Awakened event (first, and nowhere among the window actions)
and clears the flag; a pass with the flag clear emits no Awakened. -/
theorem c6_wakeup_roundtrip (s : WakeupState) (flushOk cleanup : Bool)
    (ws : List WindowEntry) :
    (s.alive = true → flushOk = true →
      wakeup s flushOk
        = ({ alive := true, pending_wakeup := true }, WakeupResult.ok)) ∧
    (s.alive = false → wakeup s flushOk = (s, WakeupResult.closed)) ∧
    ((post_dispatch_triggers true cleanup ws).1.1 = false) ∧
    ((post_dispatch_triggers true cleanup ws).2
      = TriggerAction.emit Event.Awakened :: ws.flatMap window_triggers) ∧
    (TriggerAction.emit Event.Awakened ∉ ws.flatMap window_triggers) ∧
    ((post_dispatch_triggers false cleanup ws).2 = ws.flatMap window_triggers) := by
  refine ⟨?_, ?_, ?_, ?_, ?_, ?_⟩
  · intro ha hk
    rcases s with ⟨al, pw⟩
    simp only [WakeupState.alive] at ha
    subst ha hk
    simp [wakeup]
  · intro ha
    rcases s with ⟨al, pw⟩
    simp only [WakeupState.alive] at ha
    subst ha
    simp [wakeup]
  · simp [post_dispatch_triggers]
  · simp [post_dispatch_triggers]
  · exact flatMap_window_triggers_no_awakened ws
  · simp [post_dispatch_triggers]

/-- Witness for C6: a live-loop wakeup with a successful flush, and a
dead-loop wakeup, at concrete states. -/
theorem c6_wakeup_roundtrip_witness :
    (wakeup { alive := true, pending_wakeup := false } true
      = ({ alive := true, pending_wakeup := true }, WakeupResult.ok)) ∧
    (wakeup { alive := false, pending_wakeup := false } true
      = ({ alive := false, pending_wakeup := false }, WakeupResult.closed)) ∧
    ((post_dispatch_triggers true false []).2
      = TriggerAction.emit Event.Awakened :: ([] : List WindowEntry).flatMap window_triggers) ∧
    ((post_dispatch_triggers true false []).1.1 = false) :=
  ⟨(c6_wakeup_roundtrip { alive := true, pending_wakeup := false }
      true false []).1 rfl rfl,
   (c6_wakeup_roundtrip { alive := false, pending_wakeup := false }
      true false []).2.1 rfl,
   (c6_wakeup_roundtrip { alive := true, pending_wakeup := false }
      true false []).2.2.2.1,
   (c6_wakeup_roundtrip { alive := true, pending_wakeup := false }
      true false []).2.2.1⟩

/-- C10: wakeup on a live loop whose flush fails returns the closed
error, yet the pending-wakeup flag has already been set and stays set,
so the next trigger pass still emits an Awakened event. -/
theorem c10_wakeup_flush_failure (s : WakeupState) (cleanup : Bool)
    (ws : List WindowEntry) (ha : s.alive = true) :
    wakeup s false
      = ({ alive := true, pending_wakeup := true }, WakeupResult.closed) ∧
    (post_dispatch_triggers (wakeup s false).1.pending_wakeup cleanup ws).2
      = TriggerAction.emit Event.Awakened :: ws.flatMap window_triggers := by
  rcases s with ⟨al, pw⟩
  simp only [WakeupState.alive] at ha
  subst ha
  constructor
  · simp [wakeup]
  · simp [wakeup, post_dispatch_triggers]

/-- Witness for C10 at a concrete live state with the flag clear. -/
theorem c10_wakeup_flush_failure_witness :
    (wakeup { alive := true, pending_wakeup := false } false
      = ({ alive := true, pending_wakeup := true }, WakeupResult.closed)) ∧
    ((post_dispatch_triggers
        (wakeup { alive := true, pending_wakeup := false } false).1.pending_wakeup
        false []).2
      = TriggerAction.emit Event.Awakened :: ([] : List WindowEntry).flatMap window_triggers) :=
  c10_wakeup_flush_failure { alive := true, pending_wakeup := false }
    false [] rfl

/-- C7: a Resized event for a window is emitted only when that window has
both a pending new size and a live decorated-surface handle (and then it
reports exactly that size); and in that case the per-window action list
is exactly: the synchronous surface resize, then Resized, then Refresh if
flagged, then Closed if flagged — never any other order. -/
theorem c7_trigger_order (w : WindowEntry) (x y d : Nat) :
    (∀ x0 y0, TriggerAction.emit (Event.Resized w.wid x0 y0) ∈ window_triggers w →
      w.newsize = some (x0, y0) ∧ w.decorated.isSome = true) ∧
    (w.newsize = some (x, y) → w.decorated = some d →
      window_triggers w
        = [TriggerAction.resizeSurface d (x : Int) (y : Int),
           TriggerAction.emit (Event.Resized w.wid x y)]
          ++ (if w.refresh then [TriggerAction.emit (Event.Refresh w.wid)] else [])
          ++ (if w.closed then [TriggerAction.emit (Event.Closed w.wid)] else [])) := by
  constructor
  · intro x0 y0 hmem
    rcases w with ⟨ns, rf, cl, wid, dec⟩
    rcases ns with _ | ⟨nx, ny⟩ <;> rcases dec with _ | dd <;>
      cases rf <;> cases cl <;> simp_all [window_triggers]
  · intro hns hdec
    rcases w with ⟨ns, rf, cl, wid, dec⟩
    simp_all [window_triggers]

/-- Witness for C7 at a window with all three pending changes. -/
theorem c7_trigger_order_witness :
    window_triggers
        { newsize := some (2, 3), refresh := true, closed := true,
          wid := 1, decorated := some 7 }
      = [TriggerAction.resizeSurface 7 (2 : Int) (3 : Int),
         TriggerAction.emit (Event.Resized 1 2 3)]
        ++ (if true then [TriggerAction.emit (Event.Refresh 1)] else [])
        ++ (if true then [TriggerAction.emit (Event.Closed 1)] else []) :=
  (c7_trigger_order
      { newsize := some (2, 3), refresh := true, closed := true,
        wid := 1, decorated := some 7 } 2 3 7).2 rfl rfl

/-!
## Lemmas about `run_forever`
-/

/-- Draining a batch leaves the sticky break cell set iff it was already
set or the batch contains a Break-returning event. -/
theorem drainFlag_eq (cb : Event → ControlFlow) :
    ∀ (evts : List Event) (flag : Bool),
      drainFlag cb flag evts = (flag || breaksIn cb evts) := by
  intro evts
  induction evts with
  | nil => intro flag; simp [drainFlag, breaksIn]
  | cons e rest ih =>
      intro flag
      have hstep : drainFlag cb flag (e :: rest)
          = drainFlag cb
              (match cb e with
               | ControlFlow.Break => true
               | ControlFlow.Continue => flag) rest := rfl
      rw [hstep, ih]
      cases h : cb e <;>
        simp [breaksIn, List.any_cons, h, Bool.or_assoc, Bool.or_comm]

/-- Every dispatched batch is delivered in full: the loop's delivered
events are the concatenation of exactly the dispatched batches. -/
theorem run_forever_loop_delivered (cb : Event → ControlFlow) :
    ∀ (batches : List (List Event)) (flag : Bool),
      (run_forever_loop cb flag batches).delivered
        = (batches.take (run_forever_loop cb flag batches).dispatches).flatten := by
  intro batches
  induction batches with
  | nil => intro flag; simp [run_forever_loop]
  | cons b rest ih =>
      intro flag
      simp only [run_forever_loop]
      cases h : drainFlag cb flag b <;> simp [h, ih]

/-- With the break cell clear on entry, the loop dispatches up to and
including the first breaking batch (or everything, never exiting, when
no batch breaks). -/
theorem run_forever_loop_false (cb : Event → ControlFlow) :
    ∀ batches : List (List Event),
      run_forever_loop cb false batches
        = (match firstBreak cb batches with
           | some k =>
               { delivered := (batches.take (k + 1)).flatten,
                 dispatches := k + 1, terminated := true }
           | none =>
               { delivered := batches.flatten,
                 dispatches := batches.length, terminated := false }) := by
  intro batches
  induction batches with
  | nil => simp [run_forever_loop, firstBreak]
  | cons b rest ih =>
      simp only [run_forever_loop, drainFlag_eq, Bool.false_or]
      cases h : breaksIn cb b with
      | true => simp [firstBreak, h]
      | false =>
          simp only [firstBreak, h, Bool.false_eq_true, if_false, ih]
          cases hf : firstBreak cb rest <;> simp [hf]

/-- With the break cell already set on entry (a pre-loop Break), the loop
still dispatches exactly one batch and delivers it whole. -/
theorem run_forever_loop_true (cb : Event → ControlFlow)
    (b : List Event) (rest : List (List Event)) :
    run_forever_loop cb true (b :: rest)
      = { delivered := b, dispatches := 1, terminated := true } := by
  simp [run_forever_loop, drainFlag_eq]

/-- C2 counterexample: when Break is returned during the initial
pre-loop drain of one buffered event, `run_forever` still performs one
blocking dispatch (not zero) and delivers that batch before stopping. -/
theorem c2_preloop_break_counterexample :
    (run_forever (fun _ => ControlFlow.Break) [Event.Awakened]
        [[Event.Refresh 0]]).dispatches = 1 ∧
    (run_forever (fun _ => ControlFlow.Break) [Event.Awakened]
        [[Event.Refresh 0]]).delivered
      = [Event.Awakened, Event.Refresh 0] ∧
    (1 : Nat) ≠ 0 :=
  ⟨rfl, rfl, by decide⟩

/-- C2 (amended): every dispatched batch is delivered in full, so Break
never truncates the batch in which it was observed; when Break first
appears in the in-loop drain of batch k, exactly k+1 blocking dispatches
happen — none after that drain pass; but when Break is returned during
the initial pre-loop drain, the loop still performs exactly one further
blocking dispatch, delivers that batch, and then stops. -/
theorem c2_run_forever_break_amended (cb : Event → ControlFlow)
    (pending : List Event) (batches : List (List Event)) :
    ((run_forever cb pending batches).delivered
      = pending
        ++ (batches.take (run_forever cb pending batches).dispatches).flatten) ∧
    (breaksIn cb pending = false →
      (∀ k, firstBreak cb batches = some k →
        (run_forever cb pending batches).dispatches = k + 1 ∧
        (run_forever cb pending batches).terminated = true) ∧
      (firstBreak cb batches = none →
        (run_forever cb pending batches).dispatches = batches.length ∧
        (run_forever cb pending batches).terminated = false)) ∧
    (breaksIn cb pending = true →
      ∀ b rest, batches = b :: rest →
        run_forever cb pending batches
          = { delivered := pending ++ b, dispatches := 1,
              terminated := true }) := by
  refine ⟨?_, ?_, ?_⟩
  · simp only [run_forever]
    rw [run_forever_loop_delivered]
  · intro hp
    constructor
    · intro k hk
      simp only [run_forever, drainFlag_eq, Bool.false_or, hp,
        run_forever_loop_false, hk]
      refine ⟨?_, ?_⟩ <;> trivial
    · intro hk
      simp only [run_forever, drainFlag_eq, Bool.false_or, hp,
        run_forever_loop_false, hk]
      refine ⟨?_, ?_⟩ <;> trivial
  · intro hp b rest hb
    subst hb
    simp only [run_forever, drainFlag_eq, Bool.false_or, hp,
      run_forever_loop_true]

/-- Witness for C2 at concrete callbacks and batches: a pre-loop Break
still costs one dispatch; an in-loop Break at batch index 1 stops after
two dispatches; a never-breaking run dispatches every batch and never
exits. -/
theorem c2_run_forever_break_amended_witness :
    (run_forever (fun _ => ControlFlow.Break) [Event.Awakened]
        [[Event.Refresh 5]]
      = { delivered := [Event.Awakened] ++ [Event.Refresh 5],
          dispatches := 1, terminated := true }) ∧
    ((run_forever
        (fun e => match e with
          | Event.Awakened => ControlFlow.Break
          | _ => ControlFlow.Continue)
        [Event.Refresh 0]
        [[Event.Refresh 1], [Event.Awakened], [Event.Refresh 2]]).dispatches
      = 2) ∧
    ((run_forever (fun _ => ControlFlow.Continue) []
        [[Event.Awakened]]).dispatches = 1 ∧
     (run_forever (fun _ => ControlFlow.Continue) []
        [[Event.Awakened]]).terminated = false) := by
  refine ⟨?_, ?_, ?_⟩
  · exact (c2_run_forever_break_amended (fun _ => ControlFlow.Break)
      [Event.Awakened] [[Event.Refresh 5]]).2.2 rfl
      [Event.Refresh 5] [] rfl
  · exact ((c2_run_forever_break_amended
      (fun e => match e with
        | Event.Awakened => ControlFlow.Break
        | _ => ControlFlow.Continue)
      [Event.Refresh 0]
      [[Event.Refresh 1], [Event.Awakened], [Event.Refresh 2]]).2.1 rfl).1
      1 rfl |>.1
  · exact ((c2_run_forever_break_amended (fun _ => ControlFlow.Continue)
      [] [[Event.Awakened]]).2.1 rfl).2 rfl

/-!
## Lemmas about shell/seat bindings and the monitor registry
-/

/-- A bound seat survives any single context operation. -/
theorem applyCtxtOp_seat_preserved (s : WaylandState) (op : CtxtOp)
    (x : Nat) (h : s.ctxt.seat = some x) :
    (applyCtxtOp s op).ctxt.seat = some x := by
  cases op with
  | newGlobal i iface v =>
      by_cases h1 : iface = "wl_output"
      · simp [applyCtxtOp, new_global, h1, h]
      · by_cases h2 : iface = "zxdg_shell_v6" <;>
          simp [applyCtxtOp, new_global, h1, h2, h]
  | delGlobal i => simpa [applyCtxtOp, del_global] using h
  | ensureShell =>
      simp only [applyCtxtOp, ensure_shell]
      by_cases hs : s.ctxt.shell.isSome
      · simp [hs, h]
      · cases hf : findInterface s.globals "wl_shell" <;> simp [hs, hf, h]
  | initSeat =>
      have hs : s.ctxt.seat.isSome = true := by simp [h]
      simp [applyCtxtOp, init_seat, hs, h]

/-- A bound seat survives any sequence of context operations. -/
theorem runOps_seat_preserved (x : Nat) :
    ∀ (ops : List CtxtOp) (s : WaylandState),
      s.ctxt.seat = some x → (runOps s ops).ctxt.seat = some x := by
  intro ops
  induction ops with
  | nil => intro s h; simpa [runOps] using h
  | cons op rest ih =>
      intro s h
      have h1 := applyCtxtOp_seat_preserved s op x h
      simpa [runOps, List.foldl_cons] using ih _ h1

/-- A bound shell survives any single operation that is not an
extended-shell advertisement. -/
theorem applyCtxtOp_shell_preserved (s : WaylandState) (op : CtxtOp)
    (sh : Shell) (hx : isXdgAdvert op = false)
    (h : s.ctxt.shell = some sh) :
    (applyCtxtOp s op).ctxt.shell = some sh := by
  cases op with
  | newGlobal i iface v =>
      simp only [isXdgAdvert, beq_eq_false_iff_ne, ne_eq] at hx
      by_cases h1 : iface = "wl_output" <;>
        simp [applyCtxtOp, new_global, h1, hx, h]
  | delGlobal i => simpa [applyCtxtOp, del_global] using h
  | ensureShell =>
      have hs : s.ctxt.shell.isSome = true := by simp [h]
      simp [applyCtxtOp, ensure_shell, hs, h]
  | initSeat =>
      simp only [applyCtxtOp, init_seat]
      by_cases hs : s.ctxt.seat.isSome
      · simp [hs, h]
      · cases hf : findInterface s.globals "wl_seat" <;> simp [hs, hf, h]

/-- A bound shell survives any sequence of operations free of
extended-shell advertisements. -/
theorem runOps_shell_preserved (sh : Shell) :
    ∀ (ops : List CtxtOp) (s : WaylandState),
      s.ctxt.shell = some sh →
      (∀ op ∈ ops, isXdgAdvert op = false) →
      (runOps s ops).ctxt.shell = some sh := by
  intro ops
  induction ops with
  | nil => intro s h _; simpa [runOps] using h
  | cons op rest ih =>
      intro s h hx
      have h1 := applyCtxtOp_shell_preserved s op sh (hx op (by simp)) h
      simpa [runOps, List.foldl_cons] using
        ih _ h1 (fun z hz => hx z (by simp [hz]))

/-- C3 counterexample: a second extended-shell advertisement replaces an
already-bound shell with a different binding, violating the claimed
once-bound-never-replaced invariant. -/
theorem c3_shell_rebind_counterexample :
    (runOps { ctxt := { seat := none, shell := none, monitors := [] },
              store := [], globals := [] }
        [CtxtOp.newGlobal 1 ("zxdg_shell_v6") 1]).ctxt.shell
      = some (Shell.Xdg 1) ∧
    (runOps { ctxt := { seat := none, shell := none, monitors := [] },
              store := [], globals := [] }
        [CtxtOp.newGlobal 1 ("zxdg_shell_v6") 1,
         CtxtOp.newGlobal 2 ("zxdg_shell_v6") 1]).ctxt.shell
      = some (Shell.Xdg 2) ∧
    (some (Shell.Xdg 2) : Option Shell) ≠ some (Shell.Xdg 1) := by
  refine ⟨by decide, by decide, by decide⟩

/-- C3 (amended): a bound seat is never replaced by any sequence of
global advertisements, global removals, `ensure_shell` or `init_seat`
invocations; a bound shell is never replaced by any such sequence free of
extended-shell advertisements, and in particular `ensure_shell` returns
the state unchanged when a shell is bound and `init_seat` returns it
unchanged when a seat is bound — but an extended-shell advertisement
overwrites the shell binding unconditionally. -/
theorem c3_bindings_stable_amended (s : WaylandState)
    (ops : List CtxtOp) :
    (∀ x, s.ctxt.seat = some x → (runOps s ops).ctxt.seat = some x) ∧
    (∀ sh, s.ctxt.shell = some sh →
      (∀ op ∈ ops, isXdgAdvert op = false) →
      (runOps s ops).ctxt.shell = some sh) ∧
    (s.ctxt.shell.isSome = true → ensure_shell s = some s) ∧
    (s.ctxt.seat.isSome = true → init_seat s = s) := by
  refine ⟨?_, ?_, ?_, ?_⟩
  · intro x h; exact runOps_seat_preserved x ops s h
  · intro sh h hx; exact runOps_shell_preserved sh ops s h hx
  · intro h; simp [ensure_shell, h]
  · intro h; simp [init_seat, h]

/-- Witness for C3 at a concrete state with both bindings present and a
sequence of seat/output advertisements, a removal and re-entrant
`ensure_shell`/`init_seat` calls. -/
theorem c3_bindings_stable_amended_witness :
    ((runOps { ctxt := { seat := some 4, shell := some (Shell.Wl 9),
                         monitors := [] },
               store := [], globals := [] }
        [CtxtOp.newGlobal 1 ("wl_output") 3, CtxtOp.ensureShell,
         CtxtOp.initSeat, CtxtOp.delGlobal 1]).ctxt.seat = some 4) ∧
    ((runOps { ctxt := { seat := some 4, shell := some (Shell.Wl 9),
                         monitors := [] },
               store := [], globals := [] }
        [CtxtOp.newGlobal 1 ("wl_output") 3, CtxtOp.ensureShell,
         CtxtOp.initSeat, CtxtOp.delGlobal 1]).ctxt.shell
      = some (Shell.Wl 9)) := by
  have h := c3_bindings_stable_amended
    { ctxt := { seat := some 4, shell := some (Shell.Wl 9),
                monitors := [] },
      store := [], globals := [] }
    [CtxtOp.newGlobal 1 ("wl_output") 3, CtxtOp.ensureShell,
     CtxtOp.initSeat, CtxtOp.delGlobal 1]
  exact ⟨h.1 4 rfl, h.2.1 (Shell.Wl 9) rfl (by decide)⟩

/-- C8: after a global removal with id X the monitor registry holds no
entry whose stored id is X (removal matches by id), so
`get_available_monitors` yields no MonitorId with native identifier X;
and the heap of shared OutputInfo cells is untouched, so every MonitorId
handle obtained before the removal still reads the same name, id,
dimensions, position and scale. -/
theorem c8_monitor_removal (s : WaylandState) (X : Nat) :
    ((del_global s X).store = s.store) ∧
    (∀ m ∈ get_available_monitors (del_global s X),
      MonitorId.get_native_identifier (del_global s X).store m ≠ X) ∧
    (∀ m : MonitorId,
      MonitorId.get_name (del_global s X).store m
        = MonitorId.get_name s.store m ∧
      MonitorId.get_native_identifier (del_global s X).store m
        = MonitorId.get_native_identifier s.store m ∧
      MonitorId.get_dimensions (del_global s X).store m
        = MonitorId.get_dimensions s.store m ∧
      MonitorId.get_position (del_global s X).store m
        = MonitorId.get_position s.store m ∧
      MonitorId.get_hidpi_factor (del_global s X).store m
        = MonitorId.get_hidpi_factor s.store m) := by
  refine ⟨rfl, ?_, ?_⟩
  · intro m hm
    simp only [get_available_monitors, del_global, List.mem_map,
      List.mem_filter] at hm
    rcases hm with ⟨r, ⟨hr, hne⟩, hm⟩
    subst hm
    simpa [MonitorId.get_native_identifier, del_global] using hne
  · intro m
    exact ⟨rfl, rfl, rfl, rfl, rfl⟩

/-- Witness for C8: a registry with monitors of ids 7 and 5; removing id
5 leaves a registry whose only handle reports id 7 ≠ 5, while the
pre-removal handle for id 5 still reads its stored values. -/
theorem c8_monitor_removal_witness :
    (MonitorId.get_native_identifier
        (del_global { ctxt := { seat := none, shell := none,
                                monitors := [0, 1] },
                      store := [OutputInfo.new 0 7, OutputInfo.new 1 5],
                      globals := [] } 5).store { info := 0 } ≠ 5) ∧
    (MonitorId.get_name
        (del_global { ctxt := { seat := none, shell := none,
                                monitors := [0, 1] },
                      store := [OutputInfo.new 0 7, OutputInfo.new 1 5],
                      globals := [] } 5).store { info := 1 }
      = MonitorId.get_name
          [OutputInfo.new 0 7, OutputInfo.new 1 5] { info := 1 }) := by
  have h := c8_monitor_removal
    { ctxt := { seat := none, shell := none, monitors := [0, 1] },
      store := [OutputInfo.new 0 7, OutputInfo.new 1 5], globals := [] } 5
  exact ⟨h.2.1 { info := 0 } (by decide), (h.2.2 { info := 1 }).1⟩

end Winit
